import Mathlib

/-!
Shallow embedding of the `arbiter` request-batching inference server
(source files `src/types.rs`, `src/config.rs`, `src/engine.rs`,
`src/batched_engine.rs`, `src/deberta_engine.rs`, `src/main.rs`).

Modelling conventions:
- Rust `u32` arithmetic is `Nat` with explicit `% 4294967296` at each
  operation that can wrap (release-mode wrapping semantics).
- `f64` probability values, which no verified property inspects
  numerically, are carried as `Rat`.
- A oneshot result sender (`ResponseSender`) is modelled as an abstract
  sink identifier (`Nat`); delivering through a sink is recorded in a
  delivery log, mirroring the single `send` the code performs.
- The batched backend (`BatchedEngine::classify_batch`) is an oracle
  parameter returning `Except String (List (Except String
  ClassificationResponse))`, the shape of
  `Result<Vec<Result<ClassificationResponse>>>`.
- The async select loop of `BatchProcessor::run_forever` is driven by an
  explicit event trace: each `Event.admission` is one admission-branch
  iteration, each `Event.tick` one tick-branch iteration, and channel
  closure is the end of the trace, after which the closure branch runs.
-/

deriving instance DecidableEq for Except

namespace Arbiter

/-- `ClassificationRequest` from `src/types.rs`: model identifier and the
ordered input strings. -/
structure ClassificationRequest where
  model : String
  input : List String
deriving DecidableEq, Repr

/-- `Usage` from `src/types.rs`; the `u32` token counters as `Nat`
(values kept below `2^32` by the wrapping arithmetic of the producers);
`prompt_tokens_details` is an opaque optional JSON value. -/
structure Usage where
  prompt_tokens : Nat
  total_tokens : Nat
  completion_tokens : Nat
  prompt_tokens_details : Option String
deriving DecidableEq, Repr

/-- `ClassificationData` from `src/types.rs`: one per-input result; the
`f64` probabilities are carried as `Rat`. -/
structure ClassificationData where
  index : Nat
  label : String
  probs : List Rat
  num_classes : Nat
deriving DecidableEq, Repr

/-- `ClassificationResponse` from `src/types.rs`. -/
structure ClassificationResponse where
  id : String
  object : String
  created : Int
  model : String
  data : List ClassificationData
  usage : Usage
deriving DecidableEq, Repr

/-- `BatchConfig` from `src/config.rs` (`tick_duration` in
milliseconds; it plays no role in the untimed event-trace model). -/
structure BatchConfig where
  batchSize : Nat
  tickDurationMs : Nat
deriving DecidableEq, Repr

/-- `QueuedRequest` from `src/batched_engine.rs`: the request together
with its oneshot response sender, modelled as an abstract sink id. -/
structure QueuedRequest where
  request : ClassificationRequest
  sinkId : Nat
deriving DecidableEq, Repr

/-- The outcome a sink receives: `Result<ClassificationResponse>`. -/
abbrev Outcome := Except String ClassificationResponse

/-- The batched backend contract (`BatchedEngine::classify_batch` from
`src/engine.rs`): either a batch-level error or one per-request
outcome for each request. -/
abbrev Backend := List ClassificationRequest → Except String (List Outcome)

/-- Observable state of the driver (`BatchProcessor`): the FIFO queue,
plus two logs that record the externally visible effects — every
delivery made through a sink, and every request vector passed to the
backend. -/
structure DriverState where
  queue : List QueuedRequest
  deliveries : List (Nat × Outcome)
  backendCalls : List (List ClassificationRequest)
deriving DecidableEq, Repr

/-- `BatchProcessor::process_batch` from `src/batched_engine.rs`:
drain up to `batch_size` queued requests in FIFO order; if the drain is
empty return; otherwise split the batch into requests and sinks, call
the backend, and on success zip outcomes back onto sinks in order while
on batch-level failure deliver the same wrapped error to every sink. -/
def processBatch (cfg : BatchConfig) (backend : Backend) (s : DriverState) : DriverState :=
  let n := min cfg.batchSize s.queue.length
  let batch := s.queue.take n
  if batch.isEmpty then s
  else
    let requests := batch.map (fun q => q.request)
    let sinks := batch.map (fun q => q.sinkId)
    let sent :=
      match backend requests with
      | Except.ok rv => sinks.zip rv
      | Except.error e =>
          sinks.map (fun sk => (sk, Except.error ("Batch processing failed: " ++ e)))
    { queue := s.queue.drop n
      deliveries := s.deliveries ++ sent
      backendCalls := s.backendCalls ++ [requests] }

/-- One wakeup of the `tokio::select!` in `run_forever`: either the
admission channel yields a request, or the tick timer fires. -/
inductive Event where
  | admission (q : QueuedRequest)
  | tick
deriving DecidableEq, Repr

/-- One select iteration of `BatchProcessor::run_forever`
(`src/batched_engine.rs`): an admission appends to the queue and
flushes immediately when `queue.len() >= batch_size`; a tick flushes
exactly when the queue is non-empty. -/
def step (cfg : BatchConfig) (backend : Backend) (s : DriverState) : Event → DriverState
  | Event.admission q =>
      let s1 : DriverState := { s with queue := s.queue ++ [q] }
      if cfg.batchSize ≤ s1.queue.length then processBatch cfg backend s1 else s1
  | Event.tick =>
      if s.queue.isEmpty then s else processBatch cfg backend s

/-- The closure branch of `run_forever`: on a closed admission channel,
flush the remaining queue if non-empty, then `break Ok(())`. -/
def onClose (cfg : BatchConfig) (backend : Backend) (s : DriverState) :
    DriverState × Except String Unit :=
  (if s.queue.isEmpty then s else processBatch cfg backend s, Except.ok ())

/-- The driver's initial state: empty queue, nothing delivered, no
backend call made. -/
def initState : DriverState :=
  { queue := [], deliveries := [], backendCalls := [] }

/-- A complete driver run: process the event trace, then observe
channel closure. -/
def runDriver (cfg : BatchConfig) (backend : Backend) (events : List Event) :
    DriverState × Except String Unit :=
  onClose cfg backend (events.foldl (step cfg backend) initState)

/-- The `u32` value of a Rust `usize` (`n as u32` truncates). -/
def u32OfUsize (n : Nat) : Nat := n % 4294967296

/-- The per-request usage computation of
`DebertaBatchedEngine::classify_batch` (`src/deberta_engine.rs`,
`request.input.iter().map(|s| s.len() as u32 / 4).sum()`): a wrapping
`u32` sum of `byte_length as u32 / 4` over the request's inputs. -/
def debertaPromptTokens (input : List String) : Nat :=
  List.foldl (fun acc s => (acc + u32OfUsize s.utf8ByteSize / 4) % 4294967296) 0 input

/-- The `Usage` record built for one request by
`DebertaBatchedEngine::classify_batch`: `prompt_tokens` and
`total_tokens` are both the byte-length estimate, `completion_tokens`
is zero. -/
def debertaUsage (request : ClassificationRequest) : Usage :=
  { prompt_tokens := debertaPromptTokens request.input
    total_tokens := debertaPromptTokens request.input
    completion_tokens := 0
    prompt_tokens_details := none }

/-- Modelled from the spec: the spec's stated backend token estimate,
the sum over the request's input strings of `ceil(byte_length / 4)`
(spec §9, "Token usage is computed at the backend as
`ceil(byte_length/4)`"). Stated for comparison with the source-derived
`debertaPromptTokens`. -/
def specCeilPromptTokens (input : List String) : Nat :=
  (input.map (fun s => (s.utf8ByteSize + 3) / 4)).sum

/-- The request decomposition of `classify_handler` (`src/main.rs`):
each input string becomes a single-input sub-request carrying the
original model identifier. -/
def individualRequests (request : ClassificationRequest) : List ClassificationRequest :=
  request.input.map (fun text => { model := request.model, input := [text] })

/-- The collection loop of `classify_handler` (`src/main.rs`): walk the
sub-request outcomes in order with their index; on the first failure
return early (`none`, surfaced as HTTP 500); on success append the
sub-response's data with each entry's `index` rewritten to the
originating input's position, and accumulate the `u32` usage counters
with wrapping addition. -/
def collectResults (idx : Nat) (allData : List ClassificationData)
    (promptAcc completionAcc : Nat) :
    List Outcome → Option (List ClassificationData × Nat × Nat)
  | [] => some (allData, promptAcc, completionAcc)
  | Except.error _ :: _ => none
  | Except.ok resp :: rest =>
      collectResults (idx + 1)
        (allData ++ resp.data.map (fun d => { d with index := idx }))
        ((promptAcc + resp.usage.prompt_tokens) % 4294967296)
        ((completionAcc + resp.usage.completion_tokens) % 4294967296)
        rest

/-- `classify_handler` from `src/main.rs`, with the engine as an oracle
and the two nondeterministic fields (`uuid` id, `created` timestamp)
passed in. Splits the request into single-input sub-requests, obtains
each sub-outcome, and either returns HTTP 500 (on any sub-failure) or
the merged response with rewritten indices and summed usage where
`total_tokens = prompt_tokens + completion_tokens`. -/
def classify_handler (engine : ClassificationRequest → Outcome)
    (freshId : String) (now : Int) (request : ClassificationRequest) :
    Except Nat ClassificationResponse :=
  let results := (individualRequests request).map engine
  match collectResults 0 [] 0 0 results with
  | none => Except.error 500
  | some (allData, totalPrompt, totalCompletion) =>
      Except.ok
        { id := freshId
          object := "list"
          created := now
          model := request.model
          data := allData
          usage :=
            { prompt_tokens := totalPrompt
              total_tokens := (totalPrompt + totalCompletion) % 4294967296
              completion_tokens := totalCompletion
              prompt_tokens_details := none } }

/-- The index-rewritten concatenation `classify_handler` builds on the
all-success path: sub-response `i` contributes its data entries with
`index` overwritten by `i`. -/
def mergedData (idx : Nat) : List ClassificationResponse → List ClassificationData
  | [] => []
  | resp :: rest =>
      resp.data.map (fun d => { d with index := idx }) ++ mergedData (idx + 1) rest

/-! ### General list helpers -/

theorem getElem?_zip_pair {α β : Type} : ∀ (l : List α) (l' : List β) (i : Nat),
    (l.zip l')[i]? = l[i]?.bind (fun a => l'[i]?.map (fun b => (a, b)))
  | [], _, _ => by simp
  | _ :: _, [], _ => by simp
  | a :: l, b :: l', 0 => by simp
  | a :: l, b :: l', i + 1 => by simpa using getElem?_zip_pair l l' i

theorem take_min_length {α : Type} (l : List α) (n : Nat) :
    l.take (min n l.length) = l.take n := by
  rcases le_total n l.length with h | h
  · rw [min_eq_left h]
  · rw [min_eq_right h, List.take_length, List.take_of_length_le h]

theorem drop_min_length {α : Type} (l : List α) (n : Nat) :
    l.drop (min n l.length) = l.drop n := by
  rcases le_total n l.length with h | h
  · rw [min_eq_left h]
  · rw [min_eq_right h, List.drop_length, List.drop_eq_nil_of_le h]

theorem mem_zip_left {α β : Type} : ∀ (l : List α) (l' : List β),
    l.length ≤ l'.length → ∀ a ∈ l, ∃ b, (a, b) ∈ l.zip l'
  | [], _, _, a, ha => absurd ha (List.not_mem_nil a)
  | a :: l, [], h, x, hx => by simp at h
  | a :: l, b :: l', h, x, hx => by
      rcases List.mem_cons.mp hx with rfl | hx
      · exact ⟨b, List.mem_cons_self _ _⟩
      · obtain ⟨y, hy⟩ := mem_zip_left l l' (by simpa using h) x hx
        exact ⟨y, List.mem_cons_of_mem _ hy⟩

/-- A left fold of wrapping `u32` addition agrees with the plain sum as
long as the final total fits in a `u32`. -/
theorem foldl_wrapAdd_eq_sum {α : Type} (f : α → Nat) :
    ∀ (l : List α) (init : Nat), init + (l.map f).sum < 4294967296 →
      List.foldl (fun acc x => (acc + f x) % 4294967296) init l = init + (l.map f).sum
  | [], init, _ => by simp
  | x :: l, init, h => by
      have hsum : init + (f x + (l.map f).sum) < 4294967296 := by
        simpa using h
      have hx : init + f x < 4294967296 := by omega
      simp only [List.foldl_cons]
      rw [Nat.mod_eq_of_lt hx,
        foldl_wrapAdd_eq_sum f l (init + f x) (by simpa using by omega)]
      simp; omega

/-! ### Driver helpers -/

/-- Whatever branch `process_batch` takes, the queue that remains is the
original queue with its first `batch_size` records removed. -/
theorem processBatch_queue (cfg : BatchConfig) (backend : Backend) (s : DriverState) :
    (processBatch cfg backend s).queue = s.queue.drop cfg.batchSize := by
  simp only [processBatch]
  by_cases h : (s.queue.take (min cfg.batchSize s.queue.length)).isEmpty
  · rw [if_pos h]
    rw [List.isEmpty_iff, List.take_eq_nil_iff] at h
    rcases h with h | h
    · have : cfg.batchSize = 0 ∨ s.queue.length = 0 := by
        rcases Nat.min_eq_zero_iff.mp h with h' | h'
        · exact Or.inl h'
        · exact Or.inr h'
      rcases this with h' | h'
      · rw [h', List.drop_zero]
      · rw [List.eq_nil_of_length_eq_zero h', List.drop_nil]
    · rw [h, List.drop_nil]
  · rw [if_neg h]
    exact drop_min_length s.queue cfg.batchSize

/-- A single select iteration keeps the queue strictly below
`batch_size` (for positive `batch_size`): the admission branch flushes
as soon as the threshold is reached, the tick branch drains the whole
(sub-threshold) queue. -/
theorem step_queue_lt (cfg : BatchConfig) (backend : Backend)
    (hbs : 1 ≤ cfg.batchSize) (s : DriverState) (e : Event)
    (h : s.queue.length < cfg.batchSize) :
    (step cfg backend s e).queue.length < cfg.batchSize := by
  cases e with
  | admission q =>
      simp only [step]
      by_cases hfull : cfg.batchSize ≤ (s.queue ++ [q]).length
      · rw [if_pos hfull, processBatch_queue]
        simp only [List.length_drop, List.length_append, List.length_cons,
          List.length_nil]
        omega
      · rw [if_neg hfull]
        simp only [List.length_append, List.length_cons, List.length_nil] at hfull ⊢
        omega
  | tick =>
      simp only [step]
      by_cases hq : s.queue.isEmpty
      · rw [if_pos hq]; exact h
      · rw [if_neg hq, processBatch_queue]
        simp only [List.length_drop]
        omega

/-- The queue bound is an invariant of the whole select loop. -/
theorem foldl_queue_lt (cfg : BatchConfig) (backend : Backend)
    (hbs : 1 ≤ cfg.batchSize) :
    ∀ (events : List Event) (s : DriverState), s.queue.length < cfg.batchSize →
      (events.foldl (step cfg backend) s).queue.length < cfg.batchSize
  | [], _, h => h
  | e :: es, s, h =>
      foldl_queue_lt cfg backend hbs es (step cfg backend s e)
        (step_queue_lt cfg backend hbs s e h)

/-! ### Fanout-edge helpers -/

/-- On an all-success outcome list, the collection loop of
`classify_handler` never takes the early-return branch and produces the
index-rewritten concatenation plus the two wrapping usage sums. -/
theorem collectResults_map_ok :
    ∀ (subs : List ClassificationResponse) (idx : Nat)
      (allData : List ClassificationData) (p c : Nat),
      collectResults idx allData p c (subs.map Except.ok) =
        some (allData ++ mergedData idx subs,
          List.foldl (fun acc r => (acc + r.usage.prompt_tokens) % 4294967296) p subs,
          List.foldl (fun acc r => (acc + r.usage.completion_tokens) % 4294967296) c subs)
  | [], idx, d, p, c => by simp [collectResults, mergedData]
  | r :: rs, idx, d, p, c => by
      simp only [List.map_cons, collectResults, mergedData, List.foldl_cons]
      rw [collectResults_map_ok rs (idx + 1) _ _ _]
      simp [List.append_assoc]

/-- Any failed sub-outcome makes the collection loop return early. -/
theorem collectResults_none_of_error :
    ∀ (results : List Outcome) (e : String), Except.error e ∈ results →
      ∀ (idx : Nat) (allData : List ClassificationData) (p c : Nat),
        collectResults idx allData p c results = none
  | [], e, h, _, _, _, _ => absurd h (List.not_mem_nil _)
  | Except.error _ :: rs, e, h, idx, d, p, c => by simp [collectResults]
  | Except.ok r :: rs, e, h, idx, d, p, c => by
      simp only [collectResults]
      have hmem : Except.error e ∈ rs := by
        rcases List.mem_cons.mp h with h' | h'
        · exact absurd h' (by simp)
        · exact h'
      exact collectResults_none_of_error rs e hmem _ _ _ _

/-- When every sub-response carries exactly one result entry, the merged
data has one entry per sub-response. -/
theorem mergedData_length_one :
    ∀ (subs : List ClassificationResponse) (idx : Nat),
      (∀ r ∈ subs, r.data.length = 1) →
      (mergedData idx subs).length = subs.length
  | [], _, _ => rfl
  | r :: rs, idx, h => by
      simp only [mergedData, List.length_append, List.length_map, List.length_cons]
      rw [h r (List.mem_cons_self _ _),
        mergedData_length_one rs (idx + 1) (fun r' hr' => h r' (List.mem_cons_of_mem _ hr'))]
      omega

/-- When every sub-response carries exactly one result entry, the `i`-th
merged entry carries rewritten index `idx + i`. -/
theorem mergedData_getElem_index :
    ∀ (subs : List ClassificationResponse) (idx : Nat),
      (∀ r ∈ subs, r.data.length = 1) →
      ∀ i, i < subs.length →
        ((mergedData idx subs)[i]?).map (fun d => d.index) = some (idx + i)
  | [], _, _, i, hi => by simp at hi
  | r :: rs, idx, h, i, hi => by
      obtain ⟨d, hd⟩ := List.length_eq_one.mp (h r (List.mem_cons_self _ _))
      cases i with
      | zero =>
          simp only [mergedData]
          rw [hd]
          simp
      | succ i =>
          have h' : ∀ r' ∈ rs, r'.data.length = 1 :=
            fun r' hr' => h r' (List.mem_cons_of_mem _ hr')
          have hi' : i < rs.length := by
            simpa using Nat.lt_of_succ_lt_succ hi
          simp only [mergedData]
          rw [hd]
          simp only [List.map_cons, List.map_nil, List.singleton_append,
            List.getElem?_cons_succ]
          rw [mergedData_getElem_index rs (idx + 1) h' i hi']
          congr 1
          omega

/-- Characterization of a non-trivial flush: with a positive
`batch_size` and a non-empty queue, `process_batch` drains the first
`batch_size` records, logs exactly one backend call on their requests,
and appends the matching deliveries. -/
theorem processBatch_flush (cfg : BatchConfig) (backend : Backend) (s : DriverState)
    (hne : s.queue ≠ []) (hbs : 1 ≤ cfg.batchSize) :
    processBatch cfg backend s =
      { queue := s.queue.drop cfg.batchSize
        deliveries := s.deliveries ++
          (match backend ((s.queue.take cfg.batchSize).map (fun q => q.request)) with
           | Except.ok rv =>
               ((s.queue.take cfg.batchSize).map (fun q => q.sinkId)).zip rv
           | Except.error e =>
               ((s.queue.take cfg.batchSize).map (fun q => q.sinkId)).map
                 (fun sk => (sk, Except.error ("Batch processing failed: " ++ e))))
        backendCalls :=
          s.backendCalls ++ [(s.queue.take cfg.batchSize).map (fun q => q.request)] } := by
  have hbatch : s.queue.take (min cfg.batchSize s.queue.length) =
      s.queue.take cfg.batchSize := take_min_length _ _
  have hne' : ¬ ((s.queue.take cfg.batchSize).isEmpty = true) := by
    rw [List.isEmpty_iff, List.take_eq_nil_iff]
    push_neg
    exact ⟨by omega, hne⟩
  simp only [processBatch, hbatch, drop_min_length]
  rw [if_neg hne']

/-- C2: a flush calls the backend only when the drained batch is
non-empty; the request vector it passes has between 1 and `batch_size`
requests; and the records beyond `batch_size` stay in the queue. -/
theorem flush_size_bound (cfg : BatchConfig) (backend : Backend) (s : DriverState)
    (hbs : 1 ≤ cfg.batchSize) :
    (processBatch cfg backend s).queue = s.queue.drop cfg.batchSize ∧
    (s.queue = [] → (processBatch cfg backend s).backendCalls = s.backendCalls) ∧
    (s.queue ≠ [] →
      ∃ v, (processBatch cfg backend s).backendCalls = s.backendCalls ++ [v] ∧
        1 ≤ v.length ∧ v.length ≤ cfg.batchSize) := by
  refine ⟨processBatch_queue cfg backend s, ?_, ?_⟩
  · intro h
    simp [processBatch, h]
  · intro hne
    rw [processBatch_flush cfg backend s hne hbs]
    refine ⟨(s.queue.take cfg.batchSize).map (fun q => q.request), rfl, ?_, ?_⟩
    · have hpos : 0 < s.queue.length := List.length_pos.mpr hne
      simp only [List.length_map, List.length_take]
      omega
    · simp only [List.length_map, List.length_take]
      omega

/-- C2 witness: a two-element queue flushed with `batch_size = 1` calls
the backend on exactly the first request and leaves the second
queued. -/
theorem flush_size_bound_witness :
    (1 ≤ 1) ∧
    ((processBatch { batchSize := 1, tickDurationMs := 100 } (fun _ => Except.error "down")
        { queue := [{ request := { model := "m", input := ["a"] }, sinkId := 0 },
                    { request := { model := "m", input := ["b"] }, sinkId := 1 }],
          deliveries := [], backendCalls := [] }).queue =
      [{ request := { model := "m", input := ["b"] }, sinkId := 1 }]) :=
  ⟨by decide,
    (flush_size_bound { batchSize := 1, tickDurationMs := 100 }
      (fun _ => Except.error "down")
      { queue := [{ request := { model := "m", input := ["a"] }, sinkId := 0 },
                  { request := { model := "m", input := ["b"] }, sinkId := 1 }],
        deliveries := [], backendCalls := [] } (by decide)).1.trans (by decide)⟩

/-- C1: when the backend call of a flush succeeds with one result per
drained request, the `i`-th result sink of the drained batch (FIFO
order, i.e. the `i`-th record of the queue) receives exactly the `i`-th
element of the backend's result sequence. -/
theorem batch_order_preservation (cfg : BatchConfig) (backend : Backend) (s : DriverState)
    (rv : List Outcome) (hbs : 1 ≤ cfg.batchSize) (hne : s.queue ≠ [])
    (hok : backend ((s.queue.take cfg.batchSize).map (fun q => q.request)) = Except.ok rv)
    (hlen : rv.length = (s.queue.take cfg.batchSize).length)
    (i : Nat) (hi : i < rv.length) :
    ((processBatch cfg backend s).deliveries)[s.deliveries.length + i]? =
      s.queue[i]?.bind (fun q => rv[i]?.map (fun r => (q.sinkId, r))) := by
  rw [processBatch_flush cfg backend s hne hbs]
  simp only [hok]
  rw [List.getElem?_append_right (by omega : s.deliveries.length ≤ s.deliveries.length + i)]
  have hsub : s.deliveries.length + i - s.deliveries.length = i := by omega
  rw [hsub, getElem?_zip_pair, List.getElem?_map]
  have hi' : i < cfg.batchSize := by
    rw [hlen, List.length_take] at hi
    omega
  rw [List.getElem?_take, if_pos hi']
  cases hq : s.queue[i]? <;> simp

/-- C1 witness: with `batch_size = 2` and two queued requests whose
backend outcomes differ, sink 7 (position 0) gets the first outcome and
sink 8 (position 1) the second. -/
theorem batch_order_preservation_witness :
    ((processBatch { batchSize := 2, tickDurationMs := 100 }
        (fun reqs => Except.ok (reqs.map (fun r => Except.error r.model)))
        { queue := [{ request := { model := "m0", input := ["a"] }, sinkId := 7 },
                    { request := { model := "m1", input := ["b"] }, sinkId := 8 }],
          deliveries := [], backendCalls := [] }).deliveries)[0 + 1]? =
      some (8, Except.error "m1") := by
  have h := batch_order_preservation { batchSize := 2, tickDurationMs := 100 }
    (fun reqs => Except.ok (reqs.map (fun r => Except.error r.model)))
    { queue := [{ request := { model := "m0", input := ["a"] }, sinkId := 7 },
                { request := { model := "m1", input := ["b"] }, sinkId := 8 }],
      deliveries := [], backendCalls := [] }
    [Except.error "m0", Except.error "m1"] (by decide) (by decide) (by decide) (by decide)
    1 (by decide)
  exact h.trans (by decide)

/-- C5: when the backend call of a flush fails as a whole, every result
sink of the drained batch receives the same `BackendFailure` error
derived from that error, and no drained sink is left undelivered. -/
theorem batch_error_broadcast (cfg : BatchConfig) (backend : Backend) (s : DriverState)
    (e : String) (hbs : 1 ≤ cfg.batchSize) (hne : s.queue ≠ [])
    (herr : backend ((s.queue.take cfg.batchSize).map (fun q => q.request)) =
      Except.error e) :
    (processBatch cfg backend s).deliveries =
      s.deliveries ++ (s.queue.take cfg.batchSize).map
        (fun q => (q.sinkId, Except.error ("Batch processing failed: " ++ e))) ∧
    ∀ q ∈ s.queue.take cfg.batchSize,
      (q.sinkId, (Except.error ("Batch processing failed: " ++ e) : Outcome)) ∈
        (processBatch cfg backend s).deliveries := by
  have hdel : (processBatch cfg backend s).deliveries =
      s.deliveries ++ (s.queue.take cfg.batchSize).map
        (fun q => (q.sinkId, Except.error ("Batch processing failed: " ++ e))) := by
    rw [processBatch_flush cfg backend s hne hbs]
    simp only [herr, List.map_map]
    rfl
  refine ⟨hdel, fun q hq => ?_⟩
  rw [hdel]
  exact List.mem_append_right _
    (List.mem_map_of_mem (fun q => (q.sinkId, Except.error ("Batch processing failed: " ++ e))) hq)

/-- C5 witness: a batch-level backend failure on a two-record batch
delivers the identical wrapped error to both sinks. -/
theorem batch_error_broadcast_witness :
    (processBatch { batchSize := 2, tickDurationMs := 100 } (fun _ => Except.error "oom")
      { queue := [{ request := { model := "m", input := ["a"] }, sinkId := 3 },
                  { request := { model := "m", input := ["b"] }, sinkId := 4 }],
        deliveries := [], backendCalls := [] }).deliveries =
      [(3, Except.error "Batch processing failed: oom"),
       (4, Except.error "Batch processing failed: oom")] := by
  have h := batch_error_broadcast { batchSize := 2, tickDurationMs := 100 }
    (fun _ => Except.error "oom")
    { queue := [{ request := { model := "m", input := ["a"] }, sinkId := 3 },
                { request := { model := "m", input := ["b"] }, sinkId := 4 }],
      deliveries := [], backendCalls := [] } "oom" (by decide) (by decide) (by decide)
  exact h.1.trans (by decide)

/-- C9: starting from the empty queue, after any sequence of select
iterations the queue holds at most `batch_size - 1` records (for
positive `batch_size`): the admission branch flushes at the threshold
and the tick branch drains the whole queue. -/
theorem queue_length_invariant (cfg : BatchConfig) (backend : Backend)
    (events : List Event) (hbs : 1 ≤ cfg.batchSize) :
    ((events.foldl (step cfg backend) initState).queue).length ≤ cfg.batchSize - 1 := by
  have h := foldl_queue_lt cfg backend hbs events initState
    (by simpa [initState] using hbs)
  omega

/-- C9 witness: three admissions into a `batch_size = 2` driver leave at
most one queued record. -/
theorem queue_length_invariant_witness :
    (([Event.admission { request := { model := "m", input := ["a"] }, sinkId := 0 },
        Event.admission { request := { model := "m", input := ["b"] }, sinkId := 1 },
        Event.admission { request := { model := "m", input := ["c"] }, sinkId := 2 }].foldl
          (step { batchSize := 2, tickDurationMs := 100 } (fun _ => Except.error "x"))
          initState).queue).length ≤ 2 - 1 :=
  queue_length_invariant { batchSize := 2, tickDurationMs := 100 }
    (fun _ => Except.error "x")
    [Event.admission { request := { model := "m", input := ["a"] }, sinkId := 0 },
     Event.admission { request := { model := "m", input := ["b"] }, sinkId := 1 },
     Event.admission { request := { model := "m", input := ["c"] }, sinkId := 2 }] (by decide)

/-- C3: on observing channel closure after any event trace (from the
empty initial queue, with positive `batch_size` and a backend honouring
the equal-length contract), the driver drains the whole remaining queue
into at most one final batch, every remaining queued request's sink is
delivered to, and the run returns successfully. -/
theorem shutdown_drains_queue (cfg : BatchConfig) (backend : Backend) (events : List Event)
    (hbs : 1 ≤ cfg.batchSize)
    (hbk : ∀ reqs rv, backend reqs = Except.ok rv → rv.length = reqs.length) :
    (runDriver cfg backend events).2 = Except.ok () ∧
    (runDriver cfg backend events).1.queue = [] ∧
    (runDriver cfg backend events).1.backendCalls =
      (events.foldl (step cfg backend) initState).backendCalls ++
        (if (events.foldl (step cfg backend) initState).queue.isEmpty then []
         else [(events.foldl (step cfg backend) initState).queue.map (fun q => q.request)]) ∧
    ∀ q ∈ (events.foldl (step cfg backend) initState).queue,
      ∃ out, (q.sinkId, out) ∈ (runDriver cfg backend events).1.deliveries := by
  set s := events.foldl (step cfg backend) initState with hs
  have hlt : s.queue.length < cfg.batchSize :=
    foldl_queue_lt cfg backend hbs events initState (by simpa [initState] using hbs)
  have htake : s.queue.take cfg.batchSize = s.queue :=
    List.take_of_length_le (le_of_lt hlt)
  by_cases hq : s.queue.isEmpty
  · have hnil : s.queue = [] := List.isEmpty_iff.mp hq
    refine ⟨rfl, ?_, ?_, ?_⟩
    · simp [runDriver, onClose, ← hs, hq, hnil]
    · simp [runDriver, onClose, ← hs, hq]
    · intro q hqmem
      rw [hnil] at hqmem
      exact absurd hqmem (List.not_mem_nil q)
  · have hne : s.queue ≠ [] := fun h => hq (by simp [h])
    have hrun1 : (runDriver cfg backend events).1 = processBatch cfg backend s := by
      simp [runDriver, onClose, ← hs, hq]
    refine ⟨rfl, ?_, ?_, ?_⟩
    · rw [hrun1, processBatch_queue]
      exact List.drop_eq_nil_of_le (le_of_lt hlt)
    · rw [hrun1, processBatch_flush cfg backend s hne hbs, if_neg hq]
      rw [htake]
    · intro q hqmem
      rw [hrun1, processBatch_flush cfg backend s hne hbs]
      cases hb : backend ((s.queue.take cfg.batchSize).map (fun q => q.request)) with
      | ok rv =>
          have hlen : rv.length =
              ((s.queue.take cfg.batchSize).map (fun q => q.request)).length :=
            hbk _ _ hb
          have hsl : ((s.queue.take cfg.batchSize).map (fun q => q.sinkId)).length ≤
              rv.length := by
            simp only [List.length_map] at hlen ⊢
            omega
          have hsk : q.sinkId ∈ (s.queue.take cfg.batchSize).map (fun q => q.sinkId) := by
            rw [htake]
            exact List.mem_map_of_mem _ hqmem
          obtain ⟨b, hmem⟩ := mem_zip_left _ _ hsl q.sinkId hsk
          refine ⟨b, ?_⟩
          simp only [hb]
          exact List.mem_append_right _ hmem
      | error e =>
          refine ⟨Except.error ("Batch processing failed: " ++ e), ?_⟩
          simp only [hb]
          refine List.mem_append_right _ ?_
          have hsk : q.sinkId ∈ (s.queue.take cfg.batchSize).map (fun q => q.sinkId) := by
            rw [htake]
            exact List.mem_map_of_mem _ hqmem
          exact List.mem_map_of_mem _ hsk

/-- C3 witness: one request admitted into a `batch_size = 2` driver is
still queued at closure; the final flush empties the queue and the run
returns `Ok`. -/
theorem shutdown_drains_queue_witness :
    (runDriver { batchSize := 2, tickDurationMs := 100 }
      (fun reqs => Except.ok (reqs.map (fun r => Except.error r.model)))
      [Event.admission { request := { model := "m", input := ["a"] }, sinkId := 9 }]).1.queue =
      [] := by
  have h := shutdown_drains_queue { batchSize := 2, tickDurationMs := 100 }
    (fun reqs => Except.ok (reqs.map (fun r => Except.error r.model)))
    [Event.admission { request := { model := "m", input := ["a"] }, sinkId := 9 }]
    (by decide) (fun reqs rv hh => by cases hh; simp)
  exact h.2.1

/-- C4: when all K sub-submissions of a K-input request succeed and each
sub-response carries exactly one result entry, the merged response has
exactly K data entries and entry `i` carries index `i`. -/
theorem fanout_input_count (engine : ClassificationRequest → Outcome)
    (freshId : String) (now : Int) (request : ClassificationRequest)
    (subs : List ClassificationResponse)
    (hK : 1 ≤ request.input.length)
    (hall : (individualRequests request).map engine = subs.map Except.ok)
    (hone : ∀ r ∈ subs, r.data.length = 1) :
    ∃ merged, classify_handler engine freshId now request = Except.ok merged ∧
      merged.data.length = request.input.length ∧
      ∀ i, i < request.input.length →
        (merged.data[i]?).map (fun d => d.index) = some i := by
  have hsubsLen : subs.length = request.input.length := by
    have h := congrArg List.length hall
    simpa [individualRequests] using h.symm
  simp only [classify_handler, hall, collectResults_map_ok]
  refine ⟨_, rfl, ?_, ?_⟩
  · simpa [mergedData_length_one subs 0 hone] using hsubsLen
  · intro i hi
    have h := mergedData_getElem_index subs 0 hone i (by omega)
    simpa using h

/-- C4 witness: a two-input request whose sub-responses each carry one
entry merges into two entries indexed 0 and 1. -/
theorem fanout_input_count_witness :
    ∃ merged,
      classify_handler
        (fun r => Except.ok
          { id := "s", object := "list", created := 0, model := r.model,
            data := [{ index := 0, label := "yes", probs := [1], num_classes := 1 }],
            usage := { prompt_tokens := 1, total_tokens := 1, completion_tokens := 0,
                       prompt_tokens_details := none } })
        "id" 0 { model := "m", input := ["a", "b"] } = Except.ok merged ∧
      merged.data.length = 2 ∧
      ∀ i, i < 2 → (merged.data[i]?).map (fun d => d.index) = some i := by
  have h := fanout_input_count
    (fun r => Except.ok
      { id := "s", object := "list", created := 0, model := r.model,
        data := [{ index := 0, label := "yes", probs := [1], num_classes := 1 }],
        usage := { prompt_tokens := 1, total_tokens := 1, completion_tokens := 0,
                   prompt_tokens_details := none } })
    "id" 0 { model := "m", input := ["a", "b"] }
    [{ id := "s", object := "list", created := 0, model := "m",
       data := [{ index := 0, label := "yes", probs := [1], num_classes := 1 }],
       usage := { prompt_tokens := 1, total_tokens := 1, completion_tokens := 0,
                  prompt_tokens_details := none } },
     { id := "s", object := "list", created := 0, model := "m",
       data := [{ index := 0, label := "yes", probs := [1], num_classes := 1 }],
       usage := { prompt_tokens := 1, total_tokens := 1, completion_tokens := 0,
                  prompt_tokens_details := none } }]
    (by decide) (by decide) (by decide)
  exact h

/-- C6: if any sub-submission outcome of a request is a failure, the
fanout edge returns the single internal failure 500 and no response
body (so no partial success is exposed). -/
theorem fanout_failure_internal_500 (engine : ClassificationRequest → Outcome)
    (freshId : String) (now : Int) (request : ClassificationRequest) (e : String)
    (hfail : Except.error e ∈ (individualRequests request).map engine) :
    classify_handler engine freshId now request = Except.error 500 := by
  simp only [classify_handler,
    collectResults_none_of_error ((individualRequests request).map engine) e hfail 0 [] 0 0]

/-- C6 witness: with the second of three inputs failing, the handler
returns exactly `error 500`. -/
theorem fanout_failure_internal_500_witness :
    classify_handler
      (fun r => if r.input = ["b"] then Except.error "boom"
        else Except.ok
          { id := "s", object := "list", created := 0, model := r.model, data := [],
            usage := { prompt_tokens := 1, total_tokens := 1, completion_tokens := 0,
                       prompt_tokens_details := none } })
      "id" 0 { model := "m", input := ["a", "b", "c"] } = Except.error 500 :=
  fanout_failure_internal_500
    (fun r => if r.input = ["b"] then Except.error "boom"
      else Except.ok
        { id := "s", object := "list", created := 0, model := r.model, data := [],
          usage := { prompt_tokens := 1, total_tokens := 1, completion_tokens := 0,
                     prompt_tokens_details := none } })
    "id" 0 { model := "m", input := ["a", "b", "c"] } "boom" (by decide)

/-- C7: on an all-success merge whose usage totals fit in a `u32`, the
merged `prompt_tokens` and `completion_tokens` are the element-wise sums
of the sub-response usages, and `total_tokens` equals the sum over
sub-responses of `prompt_tokens + completion_tokens`, which is the
merged `prompt_tokens + completion_tokens`. -/
theorem fanout_usage_aggregation (engine : ClassificationRequest → Outcome)
    (freshId : String) (now : Int) (request : ClassificationRequest)
    (subs : List ClassificationResponse)
    (hall : (individualRequests request).map engine = subs.map Except.ok)
    (hfit : (subs.map (fun r => r.usage.prompt_tokens)).sum +
        (subs.map (fun r => r.usage.completion_tokens)).sum < 4294967296) :
    ∃ merged, classify_handler engine freshId now request = Except.ok merged ∧
      merged.usage.prompt_tokens = (subs.map (fun r => r.usage.prompt_tokens)).sum ∧
      merged.usage.completion_tokens =
        (subs.map (fun r => r.usage.completion_tokens)).sum ∧
      merged.usage.total_tokens =
        (subs.map (fun r => r.usage.prompt_tokens + r.usage.completion_tokens)).sum ∧
      merged.usage.total_tokens =
        merged.usage.prompt_tokens + merged.usage.completion_tokens := by
  have hp := foldl_wrapAdd_eq_sum (fun r => r.usage.prompt_tokens) subs 0 (by omega)
  have hc := foldl_wrapAdd_eq_sum (fun r => r.usage.completion_tokens) subs 0 (by omega)
  simp only [Nat.zero_add] at hp hc
  simp only [classify_handler, hall, collectResults_map_ok]
  refine ⟨_, rfl, ?_, ?_, ?_, ?_⟩
  · simpa using hp
  · simpa using hc
  · show (List.foldl (fun acc r => (acc + r.usage.prompt_tokens) % 4294967296) 0 subs +
        List.foldl (fun acc r => (acc + r.usage.completion_tokens) % 4294967296) 0 subs) %
          4294967296 = _
    rw [hp, hc, Nat.mod_eq_of_lt hfit, List.sum_map_add]
  · show (List.foldl (fun acc r => (acc + r.usage.prompt_tokens) % 4294967296) 0 subs +
        List.foldl (fun acc r => (acc + r.usage.completion_tokens) % 4294967296) 0 subs) %
          4294967296 = _
    rw [hp, hc, Nat.mod_eq_of_lt hfit]

/-- C7 witness: merging two successful sub-responses with usages (2,1)
and (3,0) yields prompt 5, completion 1, total 6 = 5 + 1. -/
theorem fanout_usage_aggregation_witness :
    ∃ merged,
      classify_handler
        (fun r => Except.ok
          { id := "s", object := "list", created := 0, model := r.model, data := [],
            usage := { prompt_tokens := if r.input = ["a"] then 2 else 3,
                       total_tokens := 0,
                       completion_tokens := if r.input = ["a"] then 1 else 0,
                       prompt_tokens_details := none } })
        "id" 0 { model := "m", input := ["a", "b"] } = Except.ok merged ∧
      merged.usage.prompt_tokens = 5 ∧
      merged.usage.completion_tokens = 1 ∧
      merged.usage.total_tokens = 6 ∧
      merged.usage.total_tokens =
        merged.usage.prompt_tokens + merged.usage.completion_tokens := by
  have h := fanout_usage_aggregation
    (fun r => Except.ok
      { id := "s", object := "list", created := 0, model := r.model, data := [],
        usage := { prompt_tokens := if r.input = ["a"] then 2 else 3,
                   total_tokens := 0,
                   completion_tokens := if r.input = ["a"] then 1 else 0,
                   prompt_tokens_details := none } })
    "id" 0 { model := "m", input := ["a", "b"] }
    [{ id := "s", object := "list", created := 0, model := "m", data := [],
       usage := { prompt_tokens := 2, total_tokens := 0, completion_tokens := 1,
                  prompt_tokens_details := none } },
     { id := "s", object := "list", created := 0, model := "m", data := [],
       usage := { prompt_tokens := 3, total_tokens := 0, completion_tokens := 0,
                  prompt_tokens_details := none } }]
    (by decide) (by decide)
  obtain ⟨merged, h1, h2, h3, h4, h5⟩ := h
  exact ⟨merged, h1, by rw [h2]; decide, by rw [h3]; decide, by rw [h4]; decide,
    h5⟩

/-- C10: a request with an empty input array produces no sub-submission
at all and succeeds with an empty data sequence and all-zero usage. -/
theorem empty_input_success (engine : ClassificationRequest → Outcome)
    (freshId : String) (now : Int) (request : ClassificationRequest)
    (hempty : request.input = []) :
    individualRequests request = [] ∧
    classify_handler engine freshId now request =
      Except.ok { id := freshId, object := "list", created := now, model := request.model,
                  data := [],
                  usage := { prompt_tokens := 0, total_tokens := 0, completion_tokens := 0,
                             prompt_tokens_details := none } } := by
  have h1 : individualRequests request = [] := by
    simp [individualRequests, hempty]
  exact ⟨h1, by simp [classify_handler, h1, collectResults]⟩

/-- C10 witness: the handler accepts `input = []` and returns the empty
success response. -/
theorem empty_input_success_witness :
    classify_handler (fun _ => Except.error "never") "id" 0 { model := "m", input := [] } =
      Except.ok { id := "id", object := "list", created := 0, model := "m", data := [],
                  usage := { prompt_tokens := 0, total_tokens := 0, completion_tokens := 0,
                             prompt_tokens_details := none } } :=
  (empty_input_success (fun _ => Except.error "never") "id" 0
    { model := "m", input := [] } (by decide)).2

/-- C8 counterexample: for the single one-byte input "a" the backend's
usage computation (`s.len() as u32 / 4`, i.e. floor) yields 0, not the
claimed `ceil(byte_length / 4) = 1`. -/
theorem deberta_tokens_not_ceil :
    (debertaUsage { model := "m", input := ["a"] }).prompt_tokens ≠
      specCeilPromptTokens ["a"] := by decide

/-- C8 amended: the backend computes the response's `prompt_tokens` as
the sum over the request's input strings of `floor(byte_length / 4)`
(integer division; exact whenever each byte length and the total fit in
a `u32`). -/
theorem deberta_tokens_floor (request : ClassificationRequest)
    (hlen : ∀ s ∈ request.input, s.utf8ByteSize < 4294967296)
    (hfit : (request.input.map (fun s => s.utf8ByteSize / 4)).sum < 4294967296) :
    (debertaUsage request).prompt_tokens =
      (request.input.map (fun s => s.utf8ByteSize / 4)).sum := by
  have hmap : request.input.map (fun s => u32OfUsize s.utf8ByteSize / 4) =
      request.input.map (fun s => s.utf8ByteSize / 4) :=
    List.map_congr_left (fun s hs => by
      rw [u32OfUsize, Nat.mod_eq_of_lt (hlen s hs)])
  have h0 : 0 + (request.input.map (fun s => u32OfUsize s.utf8ByteSize / 4)).sum <
      4294967296 := by
    rw [hmap]
    omega
  have h := foldl_wrapAdd_eq_sum (fun s => u32OfUsize s.utf8ByteSize / 4)
    request.input 0 h0
  show debertaPromptTokens request.input = _
  rw [debertaPromptTokens]
  simp only [Nat.zero_add] at h
  rw [← hmap]
  exact h

/-- C8 witness for the amended claim: inputs "hello" (5 bytes) and "ab"
(2 bytes) give `5/4 + 2/4 = 1`. -/
theorem deberta_tokens_floor_witness :
    (debertaUsage { model := "m", input := ["hello", "ab"] }).prompt_tokens = 1 :=
  (deberta_tokens_floor { model := "m", input := ["hello", "ab"] }
    (by decide) (by decide)).trans (by decide)

end Arbiter
